import Mathlib

/-!
Verification of the Black-Scholes European option pricer
(`EuropeanOption.py`): the contract record, the closed-form pricing
method `black_and_scholes`, the shared intermediate quantities `_d1_d2`,
the five Greeks, the property setters with their eager price
recomputation, and the side-validation error path.

The Python floats are modelled as real numbers; `scipy.stats.norm.cdf`
and `norm.pdf` are modelled as the mathematical standard normal CDF and
density.  A method that can raise `ValueError` returns `Except String`;
a property setter returns the post-call state of the object together
with an optional raised error message.
-/

open MeasureTheory

/-- Model of Python `str.lower()`: lowercase every character.  (The side
strings handled by the program are ASCII, where this agrees with
Python's semantics.) -/
def strLower (s : String) : String := ⟨s.data.map Char.toLower⟩

noncomputable section

/-- Standard normal density: model of `scipy.stats.norm.pdf`. -/
def stdNormalPDF (x : ℝ) : ℝ := Real.exp (-(x ^ 2) / 2) / Real.sqrt (2 * Real.pi)

/-- Standard normal cumulative distribution function: model of
`scipy.stats.norm.cdf`. -/
def stdNormalCDF (x : ℝ) : ℝ := ∫ t in Set.Iic x, stdNormalPDF t

/-- The state of an `EuropeanOption` instance: the six constructor-set
fields `_S0 _K _T _r _sigma _type` plus the cached `_price`. -/
structure EuropeanOption where
  S0 : ℝ
  K : ℝ
  T : ℝ
  r : ℝ
  sigma : ℝ
  type : String
  price : ℝ

namespace EuropeanOption

/-- `EuropeanOption._d1_d2`:
`d1 = (log(S0/K) + (r + sigma**2/2)*T) / (sigma*sqrt(T))`, and
`d2 = d1 - sigma*sqrt(T)`. -/
def _d1_d2 (o : EuropeanOption) : ℝ × ℝ :=
  let d1 := (Real.log (o.S0 / o.K) + (o.r + o.sigma ^ 2 / 2) * o.T) /
    (o.sigma * Real.sqrt o.T)
  (d1, d1 - o.sigma * Real.sqrt o.T)

/-- The value computed in the `'call'` branch of `black_and_scholes`:
`S0 * N(d1) - K * exp(-r*T) * N(d2)`. -/
def callValue (o : EuropeanOption) : ℝ :=
  o.S0 * stdNormalCDF o._d1_d2.1 -
    o.K * Real.exp (-o.r * o.T) * stdNormalCDF o._d1_d2.2

/-- The value computed in the `'put'` branch of `black_and_scholes`:
`K * exp(-r*T) * N(-d2) - S0 * N(-d1)`. -/
def putValue (o : EuropeanOption) : ℝ :=
  o.K * Real.exp (-o.r * o.T) * stdNormalCDF (-o._d1_d2.2) -
    o.S0 * stdNormalCDF (-o._d1_d2.1)

/-- `EuropeanOption.black_and_scholes`: branches on `self._type.lower()`;
raises `ValueError` when the lowered side is neither `'call'` nor
`'put'`.  Reads the six parameter fields only, never `price`. -/
def black_and_scholes (o : EuropeanOption) : Except String ℝ :=
  if strLower o.type = "call" then Except.ok o.callValue
  else if strLower o.type = "put" then Except.ok o.putValue
  else Except.error "Option type can only be a Call or a Put."

/-- `EuropeanOption.__init__`: stores the six arguments verbatim and then
computes `self._price = self.black_and_scholes()`.  The price field of
the intermediate record is a placeholder (`black_and_scholes` never
reads it); a `ValueError` from pricing aborts construction. -/
def init (S0 K T r sigma : ℝ) (type : String) : Except String EuropeanOption :=
  let o : EuropeanOption := ⟨S0, K, T, r, sigma, type, 0⟩
  match o.black_and_scholes with
  | Except.ok p => Except.ok { o with price := p }
  | Except.error e => Except.error e

/-- `EuropeanOption.delta`: compares `self._type` with `'call'`/`'put'`
verbatim (no `.lower()`); when neither matches, the Python method falls
through and returns `None`, modelled as `none`. -/
def delta (o : EuropeanOption) : Option ℝ :=
  if o.type = "call" then some (stdNormalCDF o._d1_d2.1)
  else if o.type = "put" then some (stdNormalCDF o._d1_d2.1 - 1)
  else none

/-- `EuropeanOption.gamma`: `n(d1) / (S0*sigma*sigma*sqrt(T))`,
computed on every side value. -/
def gamma (o : EuropeanOption) : ℝ :=
  stdNormalPDF o._d1_d2.1 / (o.S0 * o.sigma * o.sigma * Real.sqrt o.T)

/-- `EuropeanOption.vega`: `S0*sigma*sqrt(T)*n(d1)`, computed on every
side value. -/
def vega (o : EuropeanOption) : ℝ :=
  o.S0 * o.sigma * Real.sqrt o.T * stdNormalPDF o._d1_d2.1

/-- `EuropeanOption.theta`: exact (non-lowered) comparison of
`self._type`, like `delta`. -/
def theta (o : EuropeanOption) : Option ℝ :=
  if o.type = "call" then
    some (-o.S0 * o.sigma * stdNormalPDF o._d1_d2.1 / (2 * Real.sqrt o.T) -
      o.r * o.K * Real.exp (-o.r * o.T) * stdNormalCDF o._d1_d2.2)
  else if o.type = "put" then
    some (-o.S0 * o.sigma * stdNormalPDF o._d1_d2.1 / (2 * Real.sqrt o.T) +
      o.r * o.K * Real.exp (-o.r * o.T) * stdNormalCDF (-o._d1_d2.2))
  else none

/-- `EuropeanOption.rho`: exact (non-lowered) comparison of
`self._type`, like `delta`. -/
def rho (o : EuropeanOption) : Option ℝ :=
  if o.type = "call" then
    some (o.K * o.T * Real.exp (-o.r * o.T) * stdNormalCDF o._d1_d2.2)
  else if o.type = "put" then
    some (-o.K * o.T * Real.exp (-o.r * o.T) * stdNormalCDF (-o._d1_d2.2))
  else none

/-- The `S0` setter: assigns the field, then recomputes
`self._price = self.black_and_scholes()`.  Returns the post-call state
and the raised error, if any (on error the field assignment has already
happened, as in Python). -/
def set_S0 (o : EuropeanOption) (value : ℝ) : EuropeanOption × Option String :=
  let o1 := { o with S0 := value }
  match o1.black_and_scholes with
  | Except.ok p => ({ o1 with price := p }, none)
  | Except.error e => (o1, some e)

/-- The `K` setter. -/
def set_K (o : EuropeanOption) (value : ℝ) : EuropeanOption × Option String :=
  let o1 := { o with K := value }
  match o1.black_and_scholes with
  | Except.ok p => ({ o1 with price := p }, none)
  | Except.error e => (o1, some e)

/-- The `T` setter. -/
def set_T (o : EuropeanOption) (value : ℝ) : EuropeanOption × Option String :=
  let o1 := { o with T := value }
  match o1.black_and_scholes with
  | Except.ok p => ({ o1 with price := p }, none)
  | Except.error e => (o1, some e)

/-- The `r` setter. -/
def set_r (o : EuropeanOption) (value : ℝ) : EuropeanOption × Option String :=
  let o1 := { o with r := value }
  match o1.black_and_scholes with
  | Except.ok p => ({ o1 with price := p }, none)
  | Except.error e => (o1, some e)

/-- The `sigma` setter. -/
def set_sigma (o : EuropeanOption) (value : ℝ) : EuropeanOption × Option String :=
  let o1 := { o with sigma := value }
  match o1.black_and_scholes with
  | Except.ok p => ({ o1 with price := p }, none)
  | Except.error e => (o1, some e)

/-- The `type` setter: validates `value.lower() in ['call', 'put']`
before any mutation (a rejected assignment leaves the object untouched),
then stores the lowered string and recomputes the price. -/
def set_type (o : EuropeanOption) (value : String) : EuropeanOption × Option String :=
  if strLower value = "call" ∨ strLower value = "put" then
    let o1 := { o with type := strLower value }
    match o1.black_and_scholes with
    | Except.ok p => ({ o1 with price := p }, none)
    | Except.error e => (o1, some e)
  else (o, some "Option type can only be a Call or a Put.")

end EuropeanOption

/-- `d1` as a function of the five scalar parameters (the body of
`EuropeanOption._d1_d2` with the fields spelled out). -/
def d1f (S0 K T r sigma : ℝ) : ℝ :=
  (Real.log (S0 / K) + (r + sigma ^ 2 / 2) * T) / (sigma * Real.sqrt T)

/-- The call branch of `black_and_scholes` as a function of the five
scalar parameters. -/
def callPriceFn (S0 K T r sigma : ℝ) : ℝ :=
  S0 * stdNormalCDF (d1f S0 K T r sigma) -
    K * Real.exp (-r * T) * stdNormalCDF (d1f S0 K T r sigma - sigma * Real.sqrt T)

/-- The put branch of `black_and_scholes` as a function of the five
scalar parameters. -/
def putPriceFn (S0 K T r sigma : ℝ) : ℝ :=
  K * Real.exp (-r * T) * stdNormalCDF (-(d1f S0 K T r sigma - sigma * Real.sqrt T)) -
    S0 * stdNormalCDF (-(d1f S0 K T r sigma))

end

lemma callValue_eq (o : EuropeanOption) :
    o.callValue = callPriceFn o.S0 o.K o.T o.r o.sigma := rfl

lemma putValue_eq (o : EuropeanOption) :
    o.putValue = putPriceFn o.S0 o.K o.T o.r o.sigma := rfl

lemma sqrt_two_pi_pos : 0 < Real.sqrt (2 * Real.pi) :=
  Real.sqrt_pos.mpr (by positivity)

lemma stdNormalPDF_pos (x : ℝ) : 0 < stdNormalPDF x :=
  div_pos (Real.exp_pos _) sqrt_two_pi_pos

lemma stdNormalPDF_nonneg (x : ℝ) : 0 ≤ stdNormalPDF x := (stdNormalPDF_pos x).le

lemma stdNormalPDF_eq (x : ℝ) :
    stdNormalPDF x = Real.exp (-(1 / 2 : ℝ) * x ^ 2) / Real.sqrt (2 * Real.pi) := by
  unfold stdNormalPDF
  ring_nf

lemma stdNormalPDF_neg (x : ℝ) : stdNormalPDF (-x) = stdNormalPDF x := by
  unfold stdNormalPDF
  rw [neg_sq]

lemma continuous_stdNormalPDF : Continuous stdNormalPDF := by
  unfold stdNormalPDF
  exact (Real.continuous_exp.comp (by continuity)).div_const _

lemma integrable_stdNormalPDF : Integrable stdNormalPDF := by
  have h : Integrable (fun x : ℝ => Real.exp (-(1 / 2 : ℝ) * x ^ 2)) :=
    integrable_exp_neg_mul_sq (by norm_num)
  exact (h.div_const (Real.sqrt (2 * Real.pi))).congr
    (MeasureTheory.ae_of_all _ fun x => (stdNormalPDF_eq x).symm)

lemma integral_stdNormalPDF : ∫ x, stdNormalPDF x = 1 := by
  have h1 : ∫ x : ℝ, Real.exp (-(1 / 2 : ℝ) * x ^ 2) = Real.sqrt (Real.pi / (1 / 2)) :=
    integral_gaussian (1 / 2)
  have h2 : ∫ x, stdNormalPDF x
      = (∫ x : ℝ, Real.exp (-(1 / 2 : ℝ) * x ^ 2)) / Real.sqrt (2 * Real.pi) := by
    simp only [stdNormalPDF_eq]
    exact integral_div _ _
  rw [h2, h1]
  have h3 : Real.pi / (1 / 2) = 2 * Real.pi := by ring
  rw [h3, div_self sqrt_two_pi_pos.ne']

lemma stdNormalCDF_add_neg (x : ℝ) : stdNormalCDF x + stdNormalCDF (-x) = 1 := by
  have h1 : stdNormalCDF (-x) = ∫ t in Set.Ioi x, stdNormalPDF t := by
    unfold stdNormalCDF
    calc ∫ t in Set.Iic (-x), stdNormalPDF t
        = ∫ t in Set.Iic (-x), stdNormalPDF (-t) :=
          MeasureTheory.setIntegral_congr_fun measurableSet_Iic
            fun t _ => (stdNormalPDF_neg t).symm
      _ = ∫ t in Set.Ioi (-(-x)), stdNormalPDF t := integral_comp_neg_Iic (-x) _
      _ = ∫ t in Set.Ioi x, stdNormalPDF t := by rw [neg_neg]
  rw [h1]
  unfold stdNormalCDF
  rw [intervalIntegral.integral_Iic_add_Ioi integrable_stdNormalPDF.integrableOn
    integrable_stdNormalPDF.integrableOn]
  exact integral_stdNormalPDF

lemma stdNormalCDF_mono : Monotone stdNormalCDF := by
  intro x y hxy
  exact MeasureTheory.setIntegral_mono_set integrable_stdNormalPDF.integrableOn
    (MeasureTheory.ae_of_all _ stdNormalPDF_nonneg)
    (HasSubset.Subset.eventuallyLE (Set.Iic_subset_Iic.mpr hxy))

lemma stdNormalCDF_sub (x y : ℝ) :
    stdNormalCDF y - stdNormalCDF x = ∫ t in x..y, stdNormalPDF t :=
  intervalIntegral.integral_Iic_sub_Iic integrable_stdNormalPDF.integrableOn
    integrable_stdNormalPDF.integrableOn

lemma stdNormalCDF_strictMono : StrictMono stdNormalCDF := by
  intro x y hxy
  have h : 0 < ∫ t in x..y, stdNormalPDF t :=
    intervalIntegral.intervalIntegral_pos_of_pos_on
      (integrable_stdNormalPDF.intervalIntegrable) (fun t _ => stdNormalPDF_pos t) hxy
  have h2 := stdNormalCDF_sub x y
  linarith

lemma stdNormalCDF_pos (x : ℝ) : 0 < stdNormalCDF x := by
  have h0 : 0 ≤ stdNormalCDF (x - 1) :=
    MeasureTheory.setIntegral_nonneg measurableSet_Iic fun t _ => stdNormalPDF_nonneg t
  have h1 : stdNormalCDF (x - 1) < stdNormalCDF x := stdNormalCDF_strictMono (by linarith)
  linarith

lemma stdNormalCDF_hasDerivAt (x : ℝ) :
    HasDerivAt stdNormalCDF (stdNormalPDF x) x := by
  have key : ∀ y : ℝ, stdNormalCDF y = (∫ t in (0:ℝ)..y, stdNormalPDF t) + stdNormalCDF 0 := by
    intro y
    have h := stdNormalCDF_sub 0 y
    linarith
  have H : HasDerivAt (fun y : ℝ => (∫ t in (0:ℝ)..y, stdNormalPDF t) + stdNormalCDF 0)
      (stdNormalPDF x) x := by
    have hii : IntervalIntegrable stdNormalPDF MeasureTheory.volume 0 x :=
      integrable_stdNormalPDF.intervalIntegrable
    have h := intervalIntegral.integral_hasDerivAt_right hii
      (continuous_stdNormalPDF.stronglyMeasurableAtFilter _ _)
      continuous_stdNormalPDF.continuousAt
    exact h.add_const _
  exact H.congr_of_eventuallyEq (Filter.Eventually.of_forall key)

lemma d1f_mul (S0 K T r sigma : ℝ) (hσ : sigma ≠ 0) (hT : Real.sqrt T ≠ 0) :
    d1f S0 K T r sigma * (sigma * Real.sqrt T)
      = Real.log (S0 / K) + (r + sigma ^ 2 / 2) * T := by
  unfold d1f
  field_simp
  ring

lemma bs_pdf_identity (S0 K T r sigma : ℝ) (hS0 : 0 < S0) (hK : 0 < K)
    (hT : 0 < T) (hσ : 0 < sigma) :
    K * Real.exp (-r * T) * stdNormalPDF (d1f S0 K T r sigma - sigma * Real.sqrt T)
      = S0 * stdNormalPDF (d1f S0 K T r sigma) := by
  have hs : 0 < Real.sqrt T := Real.sqrt_pos.mpr hT
  have hs2 : Real.sqrt T ^ 2 = T := Real.sq_sqrt hT.le
  have hmul := d1f_mul S0 K T r sigma hσ.ne' hs.ne'
  have hL : Real.log (S0 / K) = Real.log S0 - Real.log K := Real.log_div hS0.ne' hK.ne'
  set d1 := d1f S0 K T r sigma with hd1
  have hexp : K * Real.exp (-r * T) *
        Real.exp (-((d1 - sigma * Real.sqrt T) ^ 2) / 2)
      = S0 * Real.exp (-(d1 ^ 2) / 2) := by
    rw [← Real.exp_log hK, ← Real.exp_log hS0, ← Real.exp_add, ← Real.exp_add,
      ← Real.exp_add]
    congr 1
    linear_combination hmul + hL - (sigma ^ 2 / 2) * hs2
  simp only [stdNormalPDF]
  rw [← mul_div_assoc, ← mul_div_assoc, hexp]

lemma hasDerivAt_callPriceFn (S0 K T r : ℝ) (hS0 : 0 < S0) (hK : 0 < K) (hT : 0 < T)
    (sigma : ℝ) (hσ : 0 < sigma) :
    HasDerivAt (fun v => callPriceFn S0 K T r v)
      (S0 * stdNormalPDF (d1f S0 K T r sigma) * Real.sqrt T) sigma := by
  have hs : 0 < Real.sqrt T := Real.sqrt_pos.mpr hT
  have hσs : sigma * Real.sqrt T ≠ 0 := (mul_pos hσ hs).ne'
  have hnum : HasDerivAt (fun v : ℝ => Real.log (S0 / K) + (r + v ^ 2 / 2) * T)
      (sigma * T) sigma := by
    have h1 : HasDerivAt (fun v : ℝ => v ^ 2) (2 * sigma) sigma := by
      simpa using hasDerivAt_pow 2 sigma
    have h3 := (((h1.div_const 2).const_add r).mul_const T).const_add
      (Real.log (S0 / K))
    have he : 2 * sigma / 2 * T = sigma * T := by ring
    exact he ▸ h3
  have hden : HasDerivAt (fun v : ℝ => v * Real.sqrt T) (Real.sqrt T) sigma := by
    simpa using (hasDerivAt_id sigma).mul_const (Real.sqrt T)
  have hd1 : HasDerivAt (fun v => d1f S0 K T r v)
      ((sigma * T * (sigma * Real.sqrt T) -
        (Real.log (S0 / K) + (r + sigma ^ 2 / 2) * T) * Real.sqrt T) /
        (sigma * Real.sqrt T) ^ 2) sigma := by
    have h := hnum.div hden hσs
    exact h
  set D1 : ℝ := (sigma * T * (sigma * Real.sqrt T) -
      (Real.log (S0 / K) + (r + sigma ^ 2 / 2) * T) * Real.sqrt T) /
      (sigma * Real.sqrt T) ^ 2 with hD1
  have hd2 : HasDerivAt (fun v => d1f S0 K T r v - v * Real.sqrt T)
      (D1 - Real.sqrt T) sigma := hd1.sub hden
  have hN1 : HasDerivAt (fun v => stdNormalCDF (d1f S0 K T r v))
      (stdNormalPDF (d1f S0 K T r sigma) * D1) sigma :=
    (stdNormalCDF_hasDerivAt _).comp sigma hd1
  have hN2 : HasDerivAt (fun v => stdNormalCDF (d1f S0 K T r v - v * Real.sqrt T))
      (stdNormalPDF (d1f S0 K T r sigma - sigma * Real.sqrt T) *
        (D1 - Real.sqrt T)) sigma :=
    (stdNormalCDF_hasDerivAt _).comp sigma hd2
  have hP : HasDerivAt (fun v => callPriceFn S0 K T r v)
      (S0 * (stdNormalPDF (d1f S0 K T r sigma) * D1) -
        K * Real.exp (-r * T) *
          (stdNormalPDF (d1f S0 K T r sigma - sigma * Real.sqrt T) *
            (D1 - Real.sqrt T))) sigma :=
    (hN1.const_mul S0).sub (hN2.const_mul (K * Real.exp (-r * T)))
  have hval : S0 * (stdNormalPDF (d1f S0 K T r sigma) * D1) -
      K * Real.exp (-r * T) *
        (stdNormalPDF (d1f S0 K T r sigma - sigma * Real.sqrt T) *
          (D1 - Real.sqrt T))
      = S0 * stdNormalPDF (d1f S0 K T r sigma) * Real.sqrt T := by
    have h2 : K * Real.exp (-r * T) *
        (stdNormalPDF (d1f S0 K T r sigma - sigma * Real.sqrt T) *
          (D1 - Real.sqrt T))
        = S0 * stdNormalPDF (d1f S0 K T r sigma) * (D1 - Real.sqrt T) := by
      rw [← mul_assoc, bs_pdf_identity S0 K T r sigma hS0 hK hT hσ]
    rw [h2]
    ring
  exact hval ▸ hP

lemma callPriceFn_strictMonoOn (S0 K T r : ℝ) (hS0 : 0 < S0) (hK : 0 < K)
    (hT : 0 < T) :
    StrictMonoOn (fun v => callPriceFn S0 K T r v) (Set.Ioi (0:ℝ)) := by
  refine strictMonoOn_of_deriv_pos (convex_Ioi 0) ?_ ?_
  · intro v hv
    exact ((hasDerivAt_callPriceFn S0 K T r hS0 hK hT v
      (Set.mem_Ioi.mp hv)).continuousAt).continuousWithinAt
  · intro v hv
    rw [interior_Ioi] at hv
    rw [(hasDerivAt_callPriceFn S0 K T r hS0 hK hT v (Set.mem_Ioi.mp hv)).deriv]
    exact mul_pos (mul_pos hS0 (stdNormalPDF_pos _)) (Real.sqrt_pos.mpr hT)

lemma callPriceFn_sub_putPriceFn (S0 K T r sigma : ℝ) :
    callPriceFn S0 K T r sigma - putPriceFn S0 K T r sigma
      = S0 - K * Real.exp (-r * T) := by
  unfold callPriceFn putPriceFn
  have h1 := stdNormalCDF_add_neg (d1f S0 K T r sigma)
  have h2 := stdNormalCDF_add_neg (d1f S0 K T r sigma - sigma * Real.sqrt T)
  linear_combination S0 * h1 - K * Real.exp (-r * T) * h2

lemma putPriceFn_strictMonoOn (S0 K T r : ℝ) (hS0 : 0 < S0) (hK : 0 < K)
    (hT : 0 < T) :
    StrictMonoOn (fun v => putPriceFn S0 K T r v) (Set.Ioi (0:ℝ)) := by
  intro a ha b hb hab
  have hc := callPriceFn_strictMonoOn S0 K T r hS0 hK hT ha hb hab
  have h1 := callPriceFn_sub_putPriceFn S0 K T r a
  have h2 := callPriceFn_sub_putPriceFn S0 K T r b
  simp only at hc ⊢
  linarith

lemma callPriceFn_pos (S0 K T r sigma : ℝ) (hS0 : 0 < S0) (hK : 0 < K)
    (hT : 0 < T) (hσ : 0 < sigma) (h : K * Real.exp (-r * T) ≤ S0) :
    0 < callPriceFn S0 K T r sigma := by
  unfold callPriceFn
  have hss : 0 < sigma * Real.sqrt T := mul_pos hσ (Real.sqrt_pos.mpr hT)
  have hN : stdNormalCDF (d1f S0 K T r sigma - sigma * Real.sqrt T) <
      stdNormalCDF (d1f S0 K T r sigma) := stdNormalCDF_strictMono (by linarith)
  have hN2 : 0 < stdNormalCDF (d1f S0 K T r sigma - sigma * Real.sqrt T) :=
    stdNormalCDF_pos _
  have hKe : 0 < K * Real.exp (-r * T) := by positivity
  nlinarith [mul_pos hKe (sub_pos.mpr hN),
    mul_nonneg (sub_nonneg.mpr h) (stdNormalCDF_pos (d1f S0 K T r sigma)).le]

lemma black_and_scholes_call (o : EuropeanOption) (h : strLower o.type = "call") :
    o.black_and_scholes = Except.ok o.callValue := by
  unfold EuropeanOption.black_and_scholes
  rw [if_pos h]

lemma black_and_scholes_put (o : EuropeanOption) (h : strLower o.type = "put") :
    o.black_and_scholes = Except.ok o.putValue := by
  unfold EuropeanOption.black_and_scholes
  rw [h, if_neg (by decide), if_pos rfl]

lemma black_and_scholes_error (o : EuropeanOption) (h1 : strLower o.type ≠ "call")
    (h2 : strLower o.type ≠ "put") :
    o.black_and_scholes = Except.error "Option type can only be a Call or a Put." := by
  unfold EuropeanOption.black_and_scholes
  rw [if_neg h1, if_neg h2]

lemma bs_isOk (o : EuropeanOption)
    (hty : strLower o.type = "call" ∨ strLower o.type = "put") :
    ∃ p, o.black_and_scholes = Except.ok p := by
  rcases hty with h | h
  · exact ⟨_, black_and_scholes_call o h⟩
  · exact ⟨_, black_and_scholes_put o h⟩

lemma set_S0_spec (o : EuropeanOption) (v : ℝ)
    (hty : strLower o.type = "call" ∨ strLower o.type = "put") :
    (o.set_S0 v).1.S0 = v ∧ (o.set_S0 v).2 = none ∧
      (o.set_S0 v).1.black_and_scholes = Except.ok (o.set_S0 v).1.price := by
  obtain ⟨p, hp⟩ := bs_isOk { o with S0 := v } hty
  simp only [EuropeanOption.set_S0]
  rw [hp]
  exact ⟨rfl, rfl, hp⟩

lemma set_K_spec (o : EuropeanOption) (v : ℝ)
    (hty : strLower o.type = "call" ∨ strLower o.type = "put") :
    (o.set_K v).1.K = v ∧ (o.set_K v).2 = none ∧
      (o.set_K v).1.black_and_scholes = Except.ok (o.set_K v).1.price := by
  obtain ⟨p, hp⟩ := bs_isOk { o with K := v } hty
  simp only [EuropeanOption.set_K]
  rw [hp]
  exact ⟨rfl, rfl, hp⟩

lemma set_T_spec (o : EuropeanOption) (v : ℝ)
    (hty : strLower o.type = "call" ∨ strLower o.type = "put") :
    (o.set_T v).1.T = v ∧ (o.set_T v).2 = none ∧
      (o.set_T v).1.black_and_scholes = Except.ok (o.set_T v).1.price := by
  obtain ⟨p, hp⟩ := bs_isOk { o with T := v } hty
  simp only [EuropeanOption.set_T]
  rw [hp]
  exact ⟨rfl, rfl, hp⟩

lemma set_r_spec (o : EuropeanOption) (v : ℝ)
    (hty : strLower o.type = "call" ∨ strLower o.type = "put") :
    (o.set_r v).1.r = v ∧ (o.set_r v).2 = none ∧
      (o.set_r v).1.black_and_scholes = Except.ok (o.set_r v).1.price := by
  obtain ⟨p, hp⟩ := bs_isOk { o with r := v } hty
  simp only [EuropeanOption.set_r]
  rw [hp]
  exact ⟨rfl, rfl, hp⟩

lemma set_sigma_spec (o : EuropeanOption) (v : ℝ)
    (hty : strLower o.type = "call" ∨ strLower o.type = "put") :
    (o.set_sigma v).1.sigma = v ∧ (o.set_sigma v).2 = none ∧
      (o.set_sigma v).1.black_and_scholes = Except.ok (o.set_sigma v).1.price := by
  obtain ⟨p, hp⟩ := bs_isOk { o with sigma := v } hty
  simp only [EuropeanOption.set_sigma]
  rw [hp]
  exact ⟨rfl, rfl, hp⟩

lemma set_type_spec (o : EuropeanOption) (s : String)
    (hs : strLower s = "call" ∨ strLower s = "put") :
    (o.set_type s).1.type = strLower s ∧ (o.set_type s).2 = none ∧
      (o.set_type s).1.black_and_scholes = Except.ok (o.set_type s).1.price := by
  have hty : strLower (strLower s) = "call" ∨ strLower (strLower s) = "put" := by
    rcases hs with h | h
    · rw [h]; left; decide
    · rw [h]; right; decide
  obtain ⟨p, hp⟩ := bs_isOk { o with type := strLower s } hty
  simp only [EuropeanOption.set_type, if_pos hs]
  rw [hp]
  exact ⟨rfl, rfl, hp⟩

/-- C1: for every contract with positive spot, strike, maturity and
volatility, and a side whose lowercase form is `call` or `put`, the
price computed at construction by `black_and_scholes` equals
`S0·N(d1) − K·e^(−r·T)·N(d2)` for a call and
`K·e^(−r·T)·N(−d2) − S0·N(−d1)` for a put, with
`d1 = (ln(S0/K) + (r + sigma²/2)·T)/(sigma·sqrt(T))` and
`d2 = d1 − sigma·sqrt(T)`. -/
theorem C1_construction_price (S0 K T r sigma : ℝ) (ty : String)
    (hS0 : 0 < S0) (hK : 0 < K) (hT : 0 < T) (hσ : 0 < sigma) :
    (strLower ty = "call" →
      EuropeanOption.init S0 K T r sigma ty = Except.ok
        ⟨S0, K, T, r, sigma, ty,
          S0 * stdNormalCDF ((Real.log (S0 / K) + (r + sigma ^ 2 / 2) * T) /
              (sigma * Real.sqrt T)) -
            K * Real.exp (-r * T) *
              stdNormalCDF ((Real.log (S0 / K) + (r + sigma ^ 2 / 2) * T) /
                  (sigma * Real.sqrt T) - sigma * Real.sqrt T)⟩) ∧
    (strLower ty = "put" →
      EuropeanOption.init S0 K T r sigma ty = Except.ok
        ⟨S0, K, T, r, sigma, ty,
          K * Real.exp (-r * T) *
              stdNormalCDF (-((Real.log (S0 / K) + (r + sigma ^ 2 / 2) * T) /
                  (sigma * Real.sqrt T) - sigma * Real.sqrt T)) -
            S0 * stdNormalCDF (-((Real.log (S0 / K) + (r + sigma ^ 2 / 2) * T) /
                (sigma * Real.sqrt T)))⟩) := by
  constructor
  · intro h
    simp only [EuropeanOption.init]
    rw [black_and_scholes_call _ h]
    rfl
  · intro h
    simp only [EuropeanOption.init]
    rw [black_and_scholes_put _ h]
    rfl

/-- Witness for C1 at `S0 = 100, K = 100, T = 1, r = 1/20, sigma = 1/5`,
side `"call"`. -/
theorem C1_construction_price_witness :
    EuropeanOption.init 100 100 1 (1/20) (1/5) "call" = Except.ok
      ⟨100, 100, 1, 1/20, 1/5, "call",
        100 * stdNormalCDF ((Real.log (100 / 100) + (1/20 + (1/5:ℝ) ^ 2 / 2) * 1) /
            (1/5 * Real.sqrt 1)) -
          100 * Real.exp (-(1/20) * 1) *
            stdNormalCDF ((Real.log (100 / 100) + (1/20 + (1/5:ℝ) ^ 2 / 2) * 1) /
                (1/5 * Real.sqrt 1) - 1/5 * Real.sqrt 1)⟩ :=
  (C1_construction_price 100 100 1 (1/20) (1/5) "call" (by norm_num) (by norm_num)
    (by norm_num) (by norm_num)).1 (by decide)

/-- C2: after any of the six setters, with a side on which the pricing
formula is defined, the stored `price` equals `black_and_scholes`
evaluated on the post-mutation field values (the assigned field holds
the new value, and no error is raised). -/
theorem C2_setter_price_invariant (o : EuropeanOption) (v : ℝ) (s : String)
    (hty : strLower o.type = "call" ∨ strLower o.type = "put")
    (hs : strLower s = "call" ∨ strLower s = "put") :
    ((o.set_S0 v).1.S0 = v ∧
      (o.set_S0 v).1.black_and_scholes = Except.ok (o.set_S0 v).1.price) ∧
    ((o.set_K v).1.K = v ∧
      (o.set_K v).1.black_and_scholes = Except.ok (o.set_K v).1.price) ∧
    ((o.set_T v).1.T = v ∧
      (o.set_T v).1.black_and_scholes = Except.ok (o.set_T v).1.price) ∧
    ((o.set_r v).1.r = v ∧
      (o.set_r v).1.black_and_scholes = Except.ok (o.set_r v).1.price) ∧
    ((o.set_sigma v).1.sigma = v ∧
      (o.set_sigma v).1.black_and_scholes = Except.ok (o.set_sigma v).1.price) ∧
    ((o.set_type s).1.type = strLower s ∧
      (o.set_type s).1.black_and_scholes = Except.ok (o.set_type s).1.price) :=
  ⟨⟨(set_S0_spec o v hty).1, (set_S0_spec o v hty).2.2⟩,
    ⟨(set_K_spec o v hty).1, (set_K_spec o v hty).2.2⟩,
    ⟨(set_T_spec o v hty).1, (set_T_spec o v hty).2.2⟩,
    ⟨(set_r_spec o v hty).1, (set_r_spec o v hty).2.2⟩,
    ⟨(set_sigma_spec o v hty).1, (set_sigma_spec o v hty).2.2⟩,
    ⟨(set_type_spec o s hs).1, (set_type_spec o s hs).2.2⟩⟩

/-- Witness for C2 at a call contract, `v = 110`, side string `"PUT"`. -/
theorem C2_setter_price_invariant_witness :
    (((⟨100, 100, 1, 1/20, 1/5, "call", 0⟩ : EuropeanOption).set_S0 110).1.S0 = 110 ∧
      ((⟨100, 100, 1, 1/20, 1/5, "call", 0⟩ : EuropeanOption).set_S0 110).1.black_and_scholes
        = Except.ok ((⟨100, 100, 1, 1/20, 1/5, "call", 0⟩ : EuropeanOption).set_S0 110).1.price) ∧
    (((⟨100, 100, 1, 1/20, 1/5, "call", 0⟩ : EuropeanOption).set_K 110).1.K = 110 ∧
      ((⟨100, 100, 1, 1/20, 1/5, "call", 0⟩ : EuropeanOption).set_K 110).1.black_and_scholes
        = Except.ok ((⟨100, 100, 1, 1/20, 1/5, "call", 0⟩ : EuropeanOption).set_K 110).1.price) ∧
    (((⟨100, 100, 1, 1/20, 1/5, "call", 0⟩ : EuropeanOption).set_T 110).1.T = 110 ∧
      ((⟨100, 100, 1, 1/20, 1/5, "call", 0⟩ : EuropeanOption).set_T 110).1.black_and_scholes
        = Except.ok ((⟨100, 100, 1, 1/20, 1/5, "call", 0⟩ : EuropeanOption).set_T 110).1.price) ∧
    (((⟨100, 100, 1, 1/20, 1/5, "call", 0⟩ : EuropeanOption).set_r 110).1.r = 110 ∧
      ((⟨100, 100, 1, 1/20, 1/5, "call", 0⟩ : EuropeanOption).set_r 110).1.black_and_scholes
        = Except.ok ((⟨100, 100, 1, 1/20, 1/5, "call", 0⟩ : EuropeanOption).set_r 110).1.price) ∧
    (((⟨100, 100, 1, 1/20, 1/5, "call", 0⟩ : EuropeanOption).set_sigma 110).1.sigma = 110 ∧
      ((⟨100, 100, 1, 1/20, 1/5, "call", 0⟩ : EuropeanOption).set_sigma 110).1.black_and_scholes
        = Except.ok ((⟨100, 100, 1, 1/20, 1/5, "call", 0⟩ : EuropeanOption).set_sigma 110).1.price) ∧
    (((⟨100, 100, 1, 1/20, 1/5, "call", 0⟩ : EuropeanOption).set_type "PUT").1.type
        = strLower "PUT" ∧
      ((⟨100, 100, 1, 1/20, 1/5, "call", 0⟩ : EuropeanOption).set_type "PUT").1.black_and_scholes
        = Except.ok ((⟨100, 100, 1, 1/20, 1/5, "call", 0⟩ : EuropeanOption).set_type "PUT").1.price) :=
  C2_setter_price_invariant ⟨100, 100, 1, 1/20, 1/5, "call", 0⟩ 110 "PUT"
    (Or.inl (by decide)) (Or.inr (by decide))

/-- C3: gamma equals `n(d1)/(S0·sigma²·sqrt(T))` and vega equals
`S0·sigma·sqrt(T)·n(d1)`, exactly the formulas as given in the spec
(including the extra sigma factor relative to the textbook forms), and
both are independent of the side field. -/
theorem C3_gamma_vega_formulas (o : EuropeanOption)
    (hS0 : 0 < o.S0) (hK : 0 < o.K) (hT : 0 < o.T) (hσ : 0 < o.sigma) :
    o.gamma = stdNormalPDF ((Real.log (o.S0 / o.K) + (o.r + o.sigma ^ 2 / 2) * o.T) /
        (o.sigma * Real.sqrt o.T)) / (o.S0 * o.sigma ^ 2 * Real.sqrt o.T) ∧
    o.vega = o.S0 * o.sigma * Real.sqrt o.T *
      stdNormalPDF ((Real.log (o.S0 / o.K) + (o.r + o.sigma ^ 2 / 2) * o.T) /
        (o.sigma * Real.sqrt o.T)) ∧
    (∀ s : String, ({ o with type := s } : EuropeanOption).gamma = o.gamma ∧
      ({ o with type := s } : EuropeanOption).vega = o.vega) := by
  refine ⟨?_, rfl, fun s => ⟨rfl, rfl⟩⟩
  show stdNormalPDF o._d1_d2.1 / (o.S0 * o.sigma * o.sigma * Real.sqrt o.T) = _
  rw [show o.S0 * o.sigma ^ 2 * Real.sqrt o.T
      = o.S0 * o.sigma * o.sigma * Real.sqrt o.T by ring]
  rfl

/-- Witness for C3 at a call contract, with side-independence
instantiated at the string "PUT". -/
theorem C3_gamma_vega_formulas_witness :
    ((⟨100, 100, 1, 1/20, 1/5, "call", 0⟩ : EuropeanOption).gamma
      = stdNormalPDF ((Real.log ((100:ℝ) / 100) + ((1:ℝ)/20 + (1/5:ℝ) ^ 2 / 2) * 1) /
          ((1/5:ℝ) * Real.sqrt 1)) / ((100:ℝ) * (1/5:ℝ) ^ 2 * Real.sqrt 1)) ∧
    ((⟨100, 100, 1, 1/20, 1/5, "call", 0⟩ : EuropeanOption).vega
      = (100:ℝ) * (1/5) * Real.sqrt 1 *
        stdNormalPDF ((Real.log ((100:ℝ) / 100) + ((1:ℝ)/20 + (1/5:ℝ) ^ 2 / 2) * 1) /
          ((1/5:ℝ) * Real.sqrt 1))) ∧
    (⟨100, 100, 1, 1/20, 1/5, "PUT", 0⟩ : EuropeanOption).gamma
      = (⟨100, 100, 1, 1/20, 1/5, "call", 0⟩ : EuropeanOption).gamma := by
  have h := C3_gamma_vega_formulas ⟨100, 100, 1, 1/20, 1/5, "call", 0⟩
    (by norm_num) (by norm_num) (by norm_num) (by norm_num)
  exact ⟨h.1, h.2.1, (h.2.2 "PUT").1⟩

/-- C4: a side string whose lowercase form is neither "call" nor "put"
raises the invalid-argument condition both at construction and at the
`type` setter, and the rejected type assignment returns the object with
every prior field, including the cached price, unchanged. -/
theorem C4_invalid_side (s : String)
    (h : ¬ (strLower s = "call" ∨ strLower s = "put")) :
    (∀ S0 K T r sigma : ℝ, EuropeanOption.init S0 K T r sigma s
      = Except.error "Option type can only be a Call or a Put.") ∧
    (∀ o : EuropeanOption, o.set_type s
      = (o, some "Option type can only be a Call or a Put.")) := by
  have h1 : strLower s ≠ "call" := fun hc => h (Or.inl hc)
  have h2 : strLower s ≠ "put" := fun hp => h (Or.inr hp)
  constructor
  · intro S0 K T r sigma
    simp only [EuropeanOption.init]
    rw [black_and_scholes_error _ h1 h2]
  · intro o
    simp only [EuropeanOption.set_type]
    rw [if_neg h]

/-- Witness for C4 at the side string "invalid". -/
theorem C4_invalid_side_witness :
    EuropeanOption.init 100 100 1 (1/20) (1/5) "invalid"
      = Except.error "Option type can only be a Call or a Put." ∧
    (⟨100, 100, 1, 1/20, 1/5, "call", 42⟩ : EuropeanOption).set_type "invalid"
      = (⟨100, 100, 1, 1/20, 1/5, "call", 42⟩,
          some "Option type can only be a Call or a Put.") := by
  have h := C4_invalid_side "invalid" (by decide)
  exact ⟨h.1 100 100 1 (1/20) (1/5), h.2 ⟨100, 100, 1, 1/20, 1/5, "call", 42⟩⟩

lemma delta_none (o : EuropeanOption) (h1 : o.type ≠ "call") (h2 : o.type ≠ "put") :
    o.delta = none := by
  simp only [EuropeanOption.delta]
  rw [if_neg h1, if_neg h2]

/-- C5 counterexample: construction with side "Call" succeeds (pricing
lowercases the side), yet `delta` compares the stored side verbatim
against the lowercase literals, falls through both branches, and
returns no value.  This refutes the claim that every successfully
constructed contract (side accepted case-insensitively) has all five
Greeks defined. -/
theorem C5_greeks_counterexample :
    Except.map EuropeanOption.delta (EuropeanOption.init 100 100 1 (1/20) (1/5) "Call")
      = Except.ok none := by
  simp only [EuropeanOption.init]
  rw [black_and_scholes_call _ (by decide)]
  rfl

/-- C5 (amended): when the stored side is exactly the lowercase string
"call" or "put" — e.g. the side was supplied in lowercase at
construction or was set through the `type` setter — all five Greek
queries are defined: `delta`, `theta` and `rho` return a value, and
`gamma` and `vega` are total real-valued expressions. -/
theorem C5_greeks_defined_amended (o : EuropeanOption)
    (h : o.type = "call" ∨ o.type = "put") :
    o.delta.isSome = true ∧ o.theta.isSome = true ∧ o.rho.isSome = true ∧
    o.gamma = stdNormalPDF o._d1_d2.1 / (o.S0 * o.sigma * o.sigma * Real.sqrt o.T) ∧
    o.vega = o.S0 * o.sigma * Real.sqrt o.T * stdNormalPDF o._d1_d2.1 := by
  rcases h with h | h
  · refine ⟨?_, ?_, ?_, rfl, rfl⟩
    · simp only [EuropeanOption.delta]; rw [if_pos h]; rfl
    · simp only [EuropeanOption.theta]; rw [if_pos h]; rfl
    · simp only [EuropeanOption.rho]; rw [if_pos h]; rfl
  · refine ⟨?_, ?_, ?_, rfl, rfl⟩
    · simp only [EuropeanOption.delta]; rw [h, if_neg (by decide), if_pos rfl]; rfl
    · simp only [EuropeanOption.theta]; rw [h, if_neg (by decide), if_pos rfl]; rfl
    · simp only [EuropeanOption.rho]; rw [h, if_neg (by decide), if_pos rfl]; rfl

/-- Witness for the amended C5 at a lowercase call contract. -/
theorem C5_greeks_defined_amended_witness :
    (⟨100, 100, 1, 1/20, 1/5, "call", 0⟩ : EuropeanOption).delta.isSome = true ∧
    (⟨100, 100, 1, 1/20, 1/5, "call", 0⟩ : EuropeanOption).theta.isSome = true ∧
    (⟨100, 100, 1, 1/20, 1/5, "call", 0⟩ : EuropeanOption).rho.isSome = true ∧
    (⟨100, 100, 1, 1/20, 1/5, "call", 0⟩ : EuropeanOption).gamma
      = stdNormalPDF (⟨100, 100, 1, 1/20, 1/5, "call", 0⟩ : EuropeanOption)._d1_d2.1 /
        ((100:ℝ) * (1/5) * (1/5) * Real.sqrt 1) ∧
    (⟨100, 100, 1, 1/20, 1/5, "call", 0⟩ : EuropeanOption).vega
      = (100:ℝ) * (1/5) * Real.sqrt 1 *
        stdNormalPDF (⟨100, 100, 1, 1/20, 1/5, "call", 0⟩ : EuropeanOption)._d1_d2.1 :=
  C5_greeks_defined_amended ⟨100, 100, 1, 1/20, 1/5, "call", 0⟩ (Or.inl (by decide))

/-- C10: after a successful `type` setter call the stored side is
exactly the lowercase "call" or "put" (the lowered input), even for
mixed-case input, whereas construction stores the supplied side string
verbatim. -/
theorem C10_side_normalization (s : String)
    (hs : strLower s = "call" ∨ strLower s = "put") :
    (∀ o : EuropeanOption, (o.set_type s).1.type = strLower s ∧
      ((o.set_type s).1.type = "call" ∨ (o.set_type s).1.type = "put")) ∧
    (∀ S0 K T r sigma : ℝ,
      Except.map EuropeanOption.type (EuropeanOption.init S0 K T r sigma s)
        = Except.ok s) := by
  constructor
  · intro o
    have h := (set_type_spec o s hs).1
    refine ⟨h, ?_⟩
    rw [h]
    exact hs
  · intro S0 K T r sigma
    simp only [EuropeanOption.init]
    rcases hs with h | h
    · rw [black_and_scholes_call _ h]
      rfl
    · rw [black_and_scholes_put _ h]
      rfl

/-- Witness for C10 at the mixed-case side string "Call": the setter
stores "call", construction stores "Call" verbatim. -/
theorem C10_side_normalization_witness :
    ((⟨100, 100, 1, 1/20, 1/5, "put", 0⟩ : EuropeanOption).set_type "Call").1.type
      = "call" ∧
    Except.map EuropeanOption.type (EuropeanOption.init 100 100 1 (1/20) (1/5) "Call")
      = Except.ok "Call" := by
  have h := C10_side_normalization "Call" (Or.inl (by decide))
  exact ⟨(h.1 ⟨100, 100, 1, 1/20, 1/5, "put", 0⟩).1.trans (by decide),
    h.2 100 100 1 (1/20) (1/5)⟩

/-- C6: put-call parity — for identical positive parameters, the call
price minus the put price produced by `black_and_scholes` equals
`S0 − K·e^(−r·T)` (exactly, in the real-number model). -/
theorem C6_put_call_parity (S0 K T r sigma p q : ℝ)
    (hS0 : 0 < S0) (hK : 0 < K) (hT : 0 < T) (hσ : 0 < sigma) :
    ∃ c u : ℝ,
      (⟨S0, K, T, r, sigma, "call", p⟩ : EuropeanOption).black_and_scholes
        = Except.ok c ∧
      (⟨S0, K, T, r, sigma, "put", q⟩ : EuropeanOption).black_and_scholes
        = Except.ok u ∧
      c - u = S0 - K * Real.exp (-r * T) := by
  refine ⟨_, _, black_and_scholes_call _ (show strLower "call" = "call" by decide),
    black_and_scholes_put _ (show strLower "put" = "put" by decide), ?_⟩
  rw [callValue_eq, putValue_eq]
  exact callPriceFn_sub_putPriceFn S0 K T r sigma

/-- Witness for C6 at `S0 = 100, K = 100, T = 1, r = 1/20, sigma = 1/5`. -/
theorem C6_put_call_parity_witness :
    ∃ c u : ℝ,
      (⟨100, 100, 1, 1/20, 1/5, "call", 0⟩ : EuropeanOption).black_and_scholes
        = Except.ok c ∧
      (⟨100, 100, 1, 1/20, 1/5, "put", 0⟩ : EuropeanOption).black_and_scholes
        = Except.ok u ∧
      c - u = 100 - 100 * Real.exp (-(1/20) * 1) :=
  C6_put_call_parity 100 100 1 (1/20) (1/5) 0 0 (by norm_num) (by norm_num)
    (by norm_num) (by norm_num)

/-- C7: for fixed positive spot, strike and maturity and a side whose
lowercase form is "call" or "put", the `black_and_scholes` price is
non-decreasing in the volatility over positive volatilities. -/
theorem C7_price_monotone_in_volatility (S0 K T r : ℝ) (ty : String) (p q : ℝ)
    (hS0 : 0 < S0) (hK : 0 < K) (hT : 0 < T)
    (hty : strLower ty = "call" ∨ strLower ty = "put")
    (sigma1 sigma2 : ℝ) (h1 : 0 < sigma1) (h12 : sigma1 ≤ sigma2) :
    ∃ p1 p2 : ℝ,
      (⟨S0, K, T, r, sigma1, ty, p⟩ : EuropeanOption).black_and_scholes
        = Except.ok p1 ∧
      (⟨S0, K, T, r, sigma2, ty, q⟩ : EuropeanOption).black_and_scholes
        = Except.ok p2 ∧
      p1 ≤ p2 := by
  have h2 : 0 < sigma2 := lt_of_lt_of_le h1 h12
  rcases hty with h | h
  · refine ⟨_, _, black_and_scholes_call _ h, black_and_scholes_call _ h, ?_⟩
    rw [callValue_eq, callValue_eq]
    rcases lt_or_eq_of_le h12 with hlt | he
    · exact ((callPriceFn_strictMonoOn S0 K T r hS0 hK hT)
        (Set.mem_Ioi.mpr h1) (Set.mem_Ioi.mpr h2) hlt).le
    · rw [he]
  · refine ⟨_, _, black_and_scholes_put _ h, black_and_scholes_put _ h, ?_⟩
    rw [putValue_eq, putValue_eq]
    rcases lt_or_eq_of_le h12 with hlt | he
    · exact ((putPriceFn_strictMonoOn S0 K T r hS0 hK hT)
        (Set.mem_Ioi.mpr h1) (Set.mem_Ioi.mpr h2) hlt).le
    · rw [he]

/-- Witness for C7 at a call contract with volatilities 1/10 ≤ 1/5. -/
theorem C7_price_monotone_in_volatility_witness :
    ∃ p1 p2 : ℝ,
      (⟨100, 100, 1, 1/20, 1/10, "call", 0⟩ : EuropeanOption).black_and_scholes
        = Except.ok p1 ∧
      (⟨100, 100, 1, 1/20, 1/5, "call", 0⟩ : EuropeanOption).black_and_scholes
        = Except.ok p2 ∧
      p1 ≤ p2 :=
  C7_price_monotone_in_volatility 100 100 1 (1/20) "call" 0 0 (by norm_num)
    (by norm_num) (by norm_num) (Or.inl (by decide)) (1/10) (1/5) (by norm_num)
    (by norm_num)

/-- C9: at the failing input `market_price = 0`, `S0 = 100`, `K = 100`,
`T = 1`, `r = 1/20`, side "call", every positive volatility gives a
strictly positive `black_and_scholes` price, so the solver objective
`|market_price − price|` has no zero and an exact implied volatility
does not exist; `implied_volatility` nevertheless returns
`least_squares(obj, [0.1]).x[0]` without inspecting the solver status,
surfacing no "did not converge" condition. -/
theorem C9_unattainable_market_price (sigma p : ℝ) (hσ : 0 < sigma) :
    ∃ c : ℝ,
      (⟨100, 100, 1, 1/20, sigma, "call", p⟩ : EuropeanOption).black_and_scholes
        = Except.ok c ∧ 0 < c := by
  refine ⟨_, black_and_scholes_call _ (show strLower "call" = "call" by decide), ?_⟩
  rw [callValue_eq]
  refine callPriceFn_pos 100 100 1 (1/20) sigma (by norm_num) (by norm_num)
    (by norm_num) hσ ?_
  have h : Real.exp (-(1/20 : ℝ) * 1) ≤ 1 := by
    rw [Real.exp_le_one_iff]
    norm_num
  nlinarith

/-- Witness for C9 at volatility 1/5. -/
theorem C9_unattainable_market_price_witness :
    ∃ c : ℝ,
      (⟨100, 100, 1, 1/20, 1/5, "call", 0⟩ : EuropeanOption).black_and_scholes
        = Except.ok c ∧ 0 < c :=
  C9_unattainable_market_price (1/5) 0 (by norm_num)
